import Mathlib

/-!
Verification of `codex-vibe-monitor`'s UI/UX search tool
(`src/.codex/skills/ui-ux-pro-max/scripts/search.py`) against its
natural-language specification.

Python strings are modelled as lists of characters (`PyStr`), so that
Python's `len`, slicing and truthiness map to `List.length`, `List.take`
and emptiness tests.  Fallible CLI validation is modelled by an outcome
type: `argparse`'s `parser.error` calls become an `argError` outcome, and
the dispatch to the search / design-system entry points becomes the other
outcome constructors.

The modules `core` and `design_system` that `search.py` imports are not
part of the repository snapshot; the definitions taken from them
(`MAX_RESULTS`, the BM25 ranker, `_slugify_path_segment`) are modelled
from the specification and marked as such in their doc comments.
-/

/-- A Python string, modelled as its list of characters. -/
abbrev PyStr := List Char

/-- Convert a Lean string literal to the `PyStr` model. -/
def str (s : String) : PyStr := s.data

/-- Python truthiness of an optional string: `None` and `""` are falsy. -/
def truthyOpt : Option PyStr → Bool
  | none => false
  | some s => !s.isEmpty

/-- A word character for tokenization and slugging: an alphanumeric
character (tokens are maximal alphanumeric runs). -/
def isWordChar (c : Char) : Bool := c.isAlphanum

/-- Accumulator worker for `splitRuns`: `acc` is the (reversed-free,
in-order) current run of word characters. -/
def splitRunsAux (acc : List Char) : List Char → List (List Char)
  | [] => if acc.isEmpty then [] else [acc]
  | c :: cs =>
    if isWordChar c then splitRunsAux (acc ++ [c]) cs
    else if acc.isEmpty then splitRunsAux [] cs
    else acc :: splitRunsAux [] cs

/-- Split a character list into its maximal runs of word characters,
dropping every non-word character. -/
def splitRuns (l : List Char) : List (List Char) := splitRunsAux [] l

/-- Join tokens with a single `'-'` separator. -/
def joinDash : List (List Char) → List Char
  | [] => []
  | [t] => t
  | t :: ts => t ++ '-' :: joinDash ts

/-- Modelled from the spec: `design_system._slugify_path_segment` (the
`design_system` module is not under `src/`).  Per §4.5 it lowercases,
replaces whitespace/punctuation runs with a single separator, strips
leading/trailing separators and path separators / traversal sequences,
and substitutes `fallback` when the result would be empty.  It is a plain
total function: it returns a value on every input, mirroring the spec's
"pure and must be total (never raises)". -/
def _slugify_path_segment (name fallback : PyStr) : PyStr :=
  let ts := splitRuns (name.map Char.toLower)
  if ts.isEmpty then fallback else joinDash ts

/-! ### Character-level lemmas -/

theorem charToNat_ofNat_valid {n : Nat} (h : n.isValidChar) : (Char.ofNat n).toNat = n := by
  simp only [Char.ofNat, dif_pos h, Char.ofNatAux, Char.toNat, UInt32.toNat]
  simp

theorem toLower_toNat (c : Char) :
    (Char.toLower c).toNat = if 65 ≤ c.toNat ∧ c.toNat ≤ 90 then c.toNat + 32 else c.toNat := by
  unfold Char.toLower
  split
  · rename_i h
    rw [if_pos h]
    exact charToNat_ofNat_valid (Or.inl (by omega))
  · rename_i h
    rw [if_neg h]

theorem charToNat_injective {a b : Char} (h : a.toNat = b.toNat) : a = b :=
  Char.ext (UInt32.ext h)

theorem toLower_idem (c : Char) : Char.toLower (Char.toLower c) = Char.toLower c := by
  apply charToNat_injective
  rw [toLower_toNat, toLower_toNat]
  by_cases h : 65 ≤ c.toNat ∧ c.toNat ≤ 90
  · simp only [if_pos h]
    rw [if_neg (by omega)]
  · simp [h]

/-! ### Tokenizer lemmas -/

/-- Every token emitted by `splitRunsAux` is a nonempty list of word
characters, each of which additionally satisfies any property `P` that
holds on the accumulator and the remaining input. -/
theorem splitRunsAux_tokens (P : Char → Prop) :
    ∀ (l acc : List Char), (∀ c ∈ acc, isWordChar c = true ∧ P c) →
      (∀ c ∈ l, P c) →
      ∀ t ∈ splitRunsAux acc l, t ≠ [] ∧ ∀ c ∈ t, isWordChar c = true ∧ P c := by
  intro l
  induction l with
  | nil =>
    intro acc hacc _ t ht
    simp only [splitRunsAux] at ht
    by_cases h : acc.isEmpty
    · simp [h] at ht
    · simp only [h, Bool.false_eq_true, if_false, List.mem_singleton] at ht
      subst ht
      exact ⟨fun hnil => by simp [hnil] at h, hacc⟩
  | cons c cs ih =>
    intro acc hacc hl t ht
    simp only [splitRunsAux] at ht
    by_cases hw : isWordChar c
    · simp only [hw, if_true] at ht
      refine ih (acc ++ [c]) ?_ (fun d hd => hl d (List.mem_cons_of_mem c hd)) t ht
      intro d hd
      rcases List.mem_append.mp hd with h1 | h2
      · exact hacc d h1
      · have hd2 : d = c := List.mem_singleton.mp h2
        subst hd2
        exact ⟨hw, hl d (List.mem_cons_self d cs)⟩
    · simp only [hw, Bool.false_eq_true, if_false] at ht
      by_cases he : acc.isEmpty
      · simp only [he, if_true] at ht
        exact ih [] (by simp) (fun d hd => hl d (List.mem_cons_of_mem c hd)) t ht
      · simp only [he, Bool.false_eq_true, if_false, List.mem_cons] at ht
        rcases ht with rfl | ht
        · exact ⟨fun hnil => by simp [hnil] at he, hacc⟩
        · exact ih [] (by simp) (fun d hd => hl d (List.mem_cons_of_mem c hd)) t ht

/-- Consuming a run of word characters extends the accumulator. -/
theorem splitRunsAux_run :
    ∀ (t rest acc : List Char), (∀ c ∈ t, isWordChar c = true) →
      splitRunsAux acc (t ++ rest) = splitRunsAux (acc ++ t) rest := by
  intro t
  induction t with
  | nil => intro rest acc _; simp
  | cons c cs ih =>
    intro rest acc ht
    have hw : isWordChar c = true := ht c (List.mem_cons_self c cs)
    have h1 : splitRunsAux acc ((c :: cs) ++ rest) = splitRunsAux (acc ++ [c]) (cs ++ rest) := by
      rw [List.cons_append]
      simp [splitRunsAux, hw]
    rw [h1, ih rest (acc ++ [c]) (fun d hd => ht d (List.mem_cons_of_mem c hd))]
    simp

/-- Splitting a dash-joined list of nonempty all-word tokens recovers the
tokens. -/
theorem splitRuns_joinDash :
    ∀ ts : List (List Char), (∀ t ∈ ts, t ≠ [] ∧ ∀ c ∈ t, isWordChar c = true) →
      ts ≠ [] → splitRuns (joinDash ts) = ts := by
  intro ts
  induction ts with
  | nil => intro _ h; exact absurd rfl h
  | cons t ts ih =>
    intro hgood _
    rcases hgood t (List.mem_cons_self t ts) with ⟨htne, htw⟩
    cases ts with
    | nil =>
      show splitRunsAux [] (joinDash [t]) = [t]
      have : joinDash [t] = t ++ [] := by simp [joinDash]
      rw [this, splitRunsAux_run t [] [] htw]
      simp [splitRunsAux, htne]
    | cons t2 ts2 =>
      show splitRunsAux [] (joinDash (t :: t2 :: ts2)) = t :: t2 :: ts2
      have hj : joinDash (t :: t2 :: ts2) = t ++ '-' :: joinDash (t2 :: ts2) := rfl
      rw [hj, splitRunsAux_run t ('-' :: joinDash (t2 :: ts2)) [] htw]
      simp only [List.nil_append, splitRunsAux]
      have hdash : isWordChar '-' = false := by decide
      rw [hdash]
      simp only [Bool.false_eq_true, if_false, List.isEmpty_eq_true]
      rw [if_neg htne]
      congr 1
      exact ih (fun u hu => hgood u (List.mem_cons_of_mem t hu)) (by simp)

/-- Characters of a dash-join are separator dashes or token characters. -/
theorem mem_joinDash :
    ∀ (ts : List (List Char)) (c : Char), c ∈ joinDash ts → c = '-' ∨ ∃ t ∈ ts, c ∈ t := by
  intro ts
  induction ts with
  | nil => intro c hc; simp [joinDash] at hc
  | cons t ts ih =>
    intro c hc
    cases ts with
    | nil =>
      right
      exact ⟨t, List.mem_singleton_self t, hc⟩
    | cons t2 ts2 =>
      have : joinDash (t :: t2 :: ts2) = t ++ '-' :: joinDash (t2 :: ts2) := rfl
      rw [this] at hc
      rcases List.mem_append.mp hc with h1 | h2
      · exact Or.inr ⟨t, List.mem_cons_self t _, h1⟩
      · rcases List.mem_cons.mp h2 with rfl | h3
        · exact Or.inl rfl
        · rcases ih c h3 with h | ⟨u, hu, hcu⟩
          · exact Or.inl h
          · exact Or.inr ⟨u, List.mem_cons_of_mem t hu, hcu⟩

/-- A dash-join of nonempty tokens starting from a nonempty token list is
nonempty. -/
theorem joinDash_ne_nil :
    ∀ ts : List (List Char), (∀ t ∈ ts, t ≠ []) → ts ≠ [] → joinDash ts ≠ [] := by
  intro ts hne
  cases ts with
  | nil => intro h; exact absurd rfl h
  | cons t ts =>
    intro _
    cases ts with
    | nil => exact hne t (List.mem_singleton_self t)
    | cons t2 ts2 =>
      show t ++ '-' :: joinDash (t2 :: ts2) ≠ []
      simp

theorem map_toLower_fixed :
    ∀ l : List Char, (∀ c ∈ l, Char.toLower c = c) → l.map Char.toLower = l := by
  intro l
  induction l with
  | nil => intro _; rfl
  | cons c cs ih =>
    intro h
    simp only [List.map_cons]
    rw [h c (List.mem_cons_self c cs), ih (fun d hd => h d (List.mem_cons_of_mem c hd))]

/-- Tokens of a slug computation are nonempty, all-word and
lowercase-fixed. -/
theorem slug_tokens_good (x : PyStr) :
    ∀ t ∈ splitRuns (x.map Char.toLower),
      t ≠ [] ∧ ∀ c ∈ t, isWordChar c = true ∧ Char.toLower c = c := by
  refine splitRunsAux_tokens (fun c => Char.toLower c = c) (x.map Char.toLower) [] (by simp) ?_
  intro c hc
  rcases List.mem_map.mp hc with ⟨d, _, rfl⟩
  exact toLower_idem d

/-- Idempotence of slugging, given that the fallback is itself a fixed
point of slugging. -/
theorem slugify_idem_of_fallback (x f : PyStr) (hf : _slugify_path_segment f f = f) :
    _slugify_path_segment (_slugify_path_segment x f) f = _slugify_path_segment x f := by
  by_cases hts : (splitRuns (x.map Char.toLower)).isEmpty
  · have hx : _slugify_path_segment x f = f := by
      unfold _slugify_path_segment
      simp [hts]
    rw [hx, hf]
  · have hgood := slug_tokens_good x
    set ts := splitRuns (x.map Char.toLower) with hts_def
    have htsne : ts ≠ [] := by
      intro h
      rw [h] at hts
      simp at hts
    have hx : _slugify_path_segment x f = joinDash ts := by
      unfold _slugify_path_segment
      simp [← hts_def, hts]
    rw [hx]
    have hfix : (joinDash ts).map Char.toLower = joinDash ts := by
      apply map_toLower_fixed
      intro c hc
      rcases mem_joinDash ts c hc with rfl | ⟨t, ht, hct⟩
      · decide
      · exact ((hgood t ht).2 c hct).2
    have hsplit : splitRuns (joinDash ts) = ts := by
      apply splitRuns_joinDash
      · intro t ht
        exact ⟨(hgood t ht).1, fun c hc => ((hgood t ht).2 c hc).1⟩
      · exact htsne
    unfold _slugify_path_segment
    rw [hfix, hsplit]
    simp [htsne]

/-- Slug results are never empty when the fallback is nonempty. -/
theorem slugify_ne_nil (x f : PyStr) (hf : f ≠ []) : _slugify_path_segment x f ≠ [] := by
  unfold _slugify_path_segment
  by_cases hts : (splitRuns (x.map Char.toLower)).isEmpty
  · simpa [hts] using hf
  · have hgood := slug_tokens_good x
    have htsne : splitRuns (x.map Char.toLower) ≠ [] := by
      intro h
      rw [h] at hts
      simp at hts
    simp only [hts, Bool.false_eq_true, if_false]
    exact joinDash_ne_nil _ (fun t ht => (hgood t ht).1) htsne

/-- C7: the slugify function is total and idempotent: for every input
string, including the empty string and strings containing path-traversal
sequences such as "../../etc", slugify returns a (nonempty) result
without raising — it is a plain total function of the model — and
`slugify (slugify x) = slugify x` for every string `x`, at both fallback
identifiers the program uses ("default" for projects, "page" for pages). -/
theorem slugify_total_idempotent :
    (∀ x : PyStr,
      _slugify_path_segment x (str "default") ≠ [] ∧
      _slugify_path_segment (_slugify_path_segment x (str "default")) (str "default") =
        _slugify_path_segment x (str "default") ∧
      _slugify_path_segment (_slugify_path_segment x (str "page")) (str "page") =
        _slugify_path_segment x (str "page")) ∧
    _slugify_path_segment (str "") (str "default") = str "default" ∧
    _slugify_path_segment (str "../../etc") (str "default") = str "etc" := by
  refine ⟨fun x => ⟨?_, ?_, ?_⟩, by decide, by decide⟩
  · exact slugify_ne_nil x (str "default") (by decide)
  · exact slugify_idem_of_fallback x (str "default") (by decide)
  · exact slugify_idem_of_fallback x (str "page") (by decide)

/-! ### The lexical ranker (Corpus rows, BM25 scoring, ranking) -/

/-- A row record: an ordered mapping of column name to text value. -/
abbrev Row := List (PyStr × PyStr)

/-- Tokenize a text into lowercase word tokens (alphanumeric runs). -/
def tokenize (s : PyStr) : List PyStr := splitRuns (s.map Char.toLower)

/-- The searchable text of a row: its field values, concatenated. -/
def rowTokens (r : Row) : List PyStr :=
  tokenize (List.intercalate (str " ") (r.map Prod.snd))

/-- BM25 saturation constant (k = 1.2). -/
def bm25K : ℚ := 6 / 5

/-- BM25 length-normalization weight (b = 0.75). -/
def bm25B : ℚ := 3 / 4

/-- Term frequency of a token within one document's token list. -/
def termFreq (t : PyStr) (doc : List PyStr) : Nat := doc.count t

/-- Document frequency: in how many documents the token occurs. -/
def docFreq (t : PyStr) (docs : List (List PyStr)) : Nat :=
  docs.countP (fun d => d.contains t)

/-- Inverse document frequency.  The customary logarithm is replaced by a
monotone rational surrogate, since the spec fixes no exact constants
("exact constants are a tuning choice, not a correctness constraint")
and the ranking properties under verification concern only the ordering
of the returned scores. -/
def idf (n df : Nat) : ℚ := ((n : ℚ) - (df : ℚ) + 1 / 2) / ((df : ℚ) + 1 / 2)

/-- Average document length over a corpus, in tokens. -/
def avgdl (docs : List (List PyStr)) : ℚ :=
  (((docs.map List.length).sum : Nat) : ℚ) / ((docs.length : Nat) : ℚ)

/-- BM25-style score of one document against the query tokens: term
frequency within the row, inverse document frequency across the corpus,
and row-length normalization against the average row length. -/
def bm25Score (qtoks : List PyStr) (docs : List (List PyStr)) (avg : ℚ)
    (doc : List PyStr) : ℚ :=
  (qtoks.map (fun t =>
    let f : ℚ := ((termFreq t doc : Nat) : ℚ)
    idf docs.length (docFreq t docs) *
      (f * (bm25K + 1)) /
      (f + bm25K * (1 - bm25B + bm25B * ((doc.length : Nat) : ℚ) / avg)))).sum

/-- Pair each element with its position, starting from `i`. -/
def withIdx : Nat → List α → List (Nat × α)
  | _, [] => []
  | i, x :: xs => (i, x) :: withIdx (i + 1) xs

/-- A scored row: original corpus position, the row, its score. -/
abbrev Scored := Nat × Row × ℚ

/-- Insert into a descending-by-score list, after every element of
greater-or-equal score (keeping earlier rows first on ties). -/
def insertDesc (p : Scored) : List Scored → List Scored
  | [] => [p]
  | q :: qs => if p.2.2 < q.2.2 then q :: insertDesc p qs else p :: q :: qs

/-- Stable insertion sort by strictly non-increasing score. -/
def sortDesc : List Scored → List Scored
  | [] => []
  | p :: ps => insertDesc p (sortDesc ps)

/-- Modelled from the spec: the ranking step of `core.search` /
`core.search_stack` (the `core` module is not under `src/`).  Per §4.2:
tokenize query and rows, score each row with a BM25-style function,
exclude zero-scoring rows, order by non-increasing score with ties broken
by original row order (stable sort), and return at most `limit` results
(`limit ≤ 0` yields an empty result).  Each result keeps its original
corpus position. -/
def rankScored (query : PyStr) (rows : List Row) (limit : Int) : List Scored :=
  let qtoks := tokenize query
  let docs := rows.map rowTokens
  let avg := avgdl docs
  let scored := withIdx 0 (rows.map (fun r => (r, bm25Score qtoks docs avg (rowTokens r))))
  let nonzero := scored.filter (fun p => p.2.2 != 0)
  (sortDesc nonzero).take limit.toNat

/-- The ranker's result as (row, score) pairs, positions dropped. -/
def rank (query : PyStr) (rows : List Row) (limit : Int) : List (Row × ℚ) :=
  (rankScored query rows limit).map Prod.snd

/-- The intended output order: scores non-increasing, and on equal scores
the original corpus positions increasing. -/
def rankOrder (p q : Scored) : Prop :=
  q.2.2 ≤ p.2.2 ∧ (p.2.2 = q.2.2 → p.1 < q.1)

theorem mem_insertDesc (p : Scored) :
    ∀ l (x : Scored), x ∈ insertDesc p l ↔ x = p ∨ x ∈ l := by
  intro l
  induction l with
  | nil => intro x; simp [insertDesc]
  | cons q qs ih =>
    intro x
    simp only [insertDesc]
    by_cases h : p.2.2 < q.2.2
    · simp only [if_pos h, List.mem_cons, ih x]
      tauto
    · simp only [if_neg h, List.mem_cons]

theorem pairwise_insertDesc (p : Scored) :
    ∀ l, l.Pairwise rankOrder → (∀ x ∈ l, p.1 < x.1) →
      (insertDesc p l).Pairwise rankOrder := by
  intro l
  induction l with
  | nil => intro _ _; simp [insertDesc, List.pairwise_singleton]
  | cons q qs ih =>
    intro hl hidx
    rcases List.pairwise_cons.mp hl with ⟨hq, hqs⟩
    simp only [insertDesc]
    by_cases h : p.2.2 < q.2.2
    · rw [if_pos h]
      refine List.pairwise_cons.mpr ⟨?_, ih hqs (fun x hx => hidx x (List.mem_cons_of_mem q hx))⟩
      intro x hx
      rcases (mem_insertDesc p qs x).mp hx with rfl | hx2
      · exact ⟨le_of_lt h, fun he => absurd (he ▸ h) (lt_irrefl _)⟩
      · exact hq x hx2
    · rw [if_neg h]
      refine List.pairwise_cons.mpr ⟨?_, hl⟩
      intro x hx
      rcases List.mem_cons.mp hx with rfl | hx2
      · exact ⟨le_of_not_lt h, fun _ => hidx x (List.mem_cons_self x qs)⟩
      · refine ⟨le_trans (hq x hx2).1 (le_of_not_lt h), fun _ => hidx x (List.mem_cons_of_mem q hx2)⟩

theorem mem_sortDesc : ∀ l (x : Scored), x ∈ sortDesc l ↔ x ∈ l := by
  intro l
  induction l with
  | nil => intro x; simp [sortDesc]
  | cons p ps ih =>
    intro x
    simp only [sortDesc, mem_insertDesc, ih, List.mem_cons]

theorem pairwise_sortDesc :
    ∀ l, l.Pairwise (fun a b : Scored => a.1 < b.1) → (sortDesc l).Pairwise rankOrder := by
  intro l
  induction l with
  | nil => intro _; simp [sortDesc]
  | cons p ps ih =>
    intro hl
    rcases List.pairwise_cons.mp hl with ⟨hp, hps⟩
    exact pairwise_insertDesc p (sortDesc ps) (ih hps)
      (fun x hx => hp x ((mem_sortDesc ps x).mp hx))

theorem withIdx_ge {α : Type} : ∀ (l : List α) (i : Nat) (x : Nat × α),
    x ∈ withIdx i l → i ≤ x.1 := by
  intro l
  induction l with
  | nil => intro i x hx; simp [withIdx] at hx
  | cons a as ih =>
    intro i x hx
    rcases List.mem_cons.mp hx with rfl | hx2
    · exact le_refl _
    · exact le_trans (Nat.le_succ i) (ih (i + 1) x hx2)

theorem pairwise_withIdx {α : Type} :
    ∀ (l : List α) (i : Nat), (withIdx i l).Pairwise (fun a b => a.1 < b.1) := by
  intro l
  induction l with
  | nil => intro i; simp [withIdx]
  | cons a as ih =>
    intro i
    refine List.pairwise_cons.mpr ⟨?_, ih (i + 1)⟩
    intro x hx
    exact lt_of_lt_of_le (Nat.lt_succ_self i) (withIdx_ge as (i + 1) x hx)

theorem withIdx_lookup {α : Type} : ∀ (l : List α) (i : Nat) (x : Nat × α),
    x ∈ withIdx i l → l[x.1 - i]? = some x.2 := by
  intro l
  induction l with
  | nil => intro i x hx; simp [withIdx] at hx
  | cons a as ih =>
    intro i x hx
    rcases List.mem_cons.mp hx with rfl | hx2
    · simp
    · have hge : i + 1 ≤ x.1 := withIdx_ge as (i + 1) x hx2
      have : x.1 - i = (x.1 - (i + 1)) + 1 := by omega
      rw [this]
      simpa using ih (i + 1) x hx2

/-- C8: for every query, corpus and limit, the ranker returns results
whose scores are non-increasing, with any two equal-score results kept in
the relative order of their rows in the original corpus (each returned
position indexes its row in the corpus).  This covers in particular every
non-empty query and populated corpus. -/
theorem rank_sorted_stable (query : PyStr) (rows : List Row) (limit : Int) :
    (rankScored query rows limit).Pairwise rankOrder ∧
    (rankScored query rows limit).Forall (fun p => rows[p.1]? = some p.2.1) := by
  constructor
  · apply List.Pairwise.sublist (List.take_sublist _ _)
    apply pairwise_sortDesc
    exact (pairwise_withIdx _ 0).filter _
  · rw [List.forall_iff_forall_mem]
    intro p hp
    have h1 : p ∈ sortDesc ((withIdx 0 (rows.map (fun r =>
        (r, bm25Score (tokenize query) (rows.map rowTokens) (avgdl (rows.map rowTokens))
          (rowTokens r))))).filter (fun p => p.2.2 != 0)) := by
      exact List.take_subset _ _ hp
    have h2 := (mem_sortDesc _ p).mp h1
    have h3 := List.mem_of_mem_filter h2
    have h4 := withIdx_lookup _ 0 p h3
    simp only [Nat.sub_zero] at h4
    rw [List.getElem?_map] at h4
    rcases hr : rows[p.1]? with _ | r
    · rw [hr] at h4
      simp at h4
    · rw [hr] at h4
      have h5 : r = p.2.1 := by
        have h6 := congrArg (Option.map Prod.fst) h4
        simpa using h6
      exact congrArg some h5

/-! ### Output formatting (`format_output`, search.py lines 53-76) -/

/-- Decimal rendering of a count, for the formatted report. -/
def natToStr (n : Nat) : PyStr := (Nat.repr n).data

/-- Truncation of one displayed field value (lines 70-72): a value longer
than 300 characters is replaced by its first 300 characters followed by
`"..."`. -/
def truncateField (v : PyStr) : PyStr :=
  if 300 < v.length then v.take 300 ++ str "..." else v

/-- The result dictionary consumed by `format_output`: selector kind and
value, query, source file name, result count and the returned rows. -/
structure ResultEnvelope where
  error : Option PyStr := none
  stack : Option PyStr := none
  domain : Option PyStr := none
  query : PyStr := []
  file : PyStr := []
  count : Nat := 0
  results : List Row := []

/-- The lines `format_output` appends for the `i`-th result row
(lines 67-74): a result header, one labelled line per field with the
truncated value, then a blank line. -/
def formatRowLines (i : Nat) (row : Row) : List PyStr :=
  (str "### Result " ++ natToStr i) ::
    (row.map (fun kv => str "- **" ++ kv.1 ++ str ":** " ++ truncateField kv.2) ++ [[]])

/-- The list of lines `format_output` assembles for a non-error result
(lines 58-75). -/
def formatOutputLines (r : ResultEnvelope) : List PyStr :=
  (if truthyOpt r.stack then
    [str "## UI Pro Max Stack Guidelines",
     str "**Stack:** " ++ r.stack.getD [] ++ str " | **Query:** " ++ r.query]
  else
    [str "## UI Pro Max Search Results",
     str "**Domain:** " ++ r.domain.getD [] ++ str " | **Query:** " ++ r.query]) ++
  [str "**Source:** " ++ r.file ++ str " | **Found:** " ++ natToStr r.count ++ str " results\n"] ++
  ((withIdx 1 r.results).map (fun p => formatRowLines p.1 p.2)).flatten

/-- `format_output` (lines 53-76): an error short-circuit, otherwise the
assembled lines joined by newlines. -/
def format_output (r : ResultEnvelope) : PyStr :=
  match r.error with
  | some e => str "Error: " ++ e
  | none => List.intercalate (str "\n") (formatOutputLines r)

/-! ### CLI argument model (`__main__`, search.py lines 79-150) -/

/-- The registered domain choices (`CSV_CONFIG` keys; script docstring
line 9 and the `--domain` choices list, line 83). -/
def CSV_CONFIG_keys : List PyStr :=
  [str "style", str "color", str "chart", str "landing", str "product",
   str "ux", str "typography", str "icons", str "react", str "web"]

/-- The registered stack choices (`AVAILABLE_STACKS`; script docstring
line 10 and the `--stack` choices list, line 84). -/
def AVAILABLE_STACKS : List PyStr :=
  [str "html-tailwind", str "react", str "nextjs"]

/-- Modelled from the spec: `core.MAX_RESULTS` (the `core` module is not
under `src/`).  Spec §6 gives "a result-count limit (default 3)",
matching the script's own help text "Max results (default: 3)". -/
def MAX_RESULTS : Int := 3

/-- An invocation's raw options: `none` means the flag was not supplied. -/
structure Cmdline where
  query : PyStr
  domain : Option PyStr := none
  stack : Option PyStr := none
  maxResults : Option Int := none
  json : Bool := false
  designSystem : Bool := false
  projectName : Option PyStr := none
  fmt : Option PyStr := none
  persist : Bool := false
  page : Option PyStr := none
  outputDir : Option PyStr := none

/-- The parsed argument namespace, with `argparse` defaults filled in. -/
structure Args where
  query : PyStr
  domain : Option PyStr
  stack : Option PyStr
  maxResults : Int
  json : Bool
  designSystem : Bool
  projectName : Option PyStr
  fmt : PyStr
  persist : Bool
  page : Option PyStr
  outputDir : Option PyStr
deriving DecidableEq

/-- Apply the parser's declared defaults (lines 83-94). -/
def resolveArgs (c : Cmdline) : Args :=
  { query := c.query, domain := c.domain, stack := c.stack,
    maxResults := c.maxResults.getD MAX_RESULTS, json := c.json,
    designSystem := c.designSystem, projectName := c.projectName,
    fmt := c.fmt.getD (str "ascii"), persist := c.persist,
    page := c.page, outputDir := c.outputDir }

/-- The argument errors the script can raise before doing any work: the
mutually exclusive selector group and choice validation (lines 82-84,
raised by `argparse` during parsing) and the three explicit
`parser.error` calls (lines 98-105). -/
inductive ArgErr where
  | mutuallyExclusiveSelectors
  | invalidChoice
  | pageRequiresPersist
  | persistOnlyWithDesignSystem
  | jsonNotWithDesignSystem
deriving DecidableEq

/-- The paths printed by the persistence confirmation (lines 124-130). -/
structure PersistConfirmation where
  dir : PyStr
  masterPath : PyStr
  pagePath : Option PyStr
deriving DecidableEq

/-- What one invocation of `__main__` does: it either stops with an
argument error before any retrieval or write, or runs exactly one of the
three modes.  For design-system runs the confirmation that would be
printed (lines 119-133) is carried along (`none` when `--persist` is
absent). -/
inductive MainOutcome where
  | argError (e : ArgErr)
  | designSystemRun (conf : Option PersistConfirmation)
  | stackSearch (query stack : PyStr) (limit : Int) (json : Bool)
  | domainSearch (query : PyStr) (domain : Option PyStr) (limit : Int) (json : Bool)
deriving DecidableEq

/-- POSIX path join, as `pathlib`'s `/` operator produces here. -/
def pathJoin (a b : PyStr) : PyStr := a ++ '/' :: b

/-- `argparse` choice validation for the two selector options. -/
def choicesOk (a : Args) : Bool :=
  (match a.domain with
   | none => true
   | some d => CSV_CONFIG_keys.contains d) &&
  (match a.stack with
   | none => true
   | some s => AVAILABLE_STACKS.contains s)

/-- Line 121: `args.project_name if args.project_name else
args.query.upper()` (Python truthiness: `None` and `""` fall back). -/
def projectNameOf (a : Args) : PyStr :=
  match a.projectName with
  | some s => if s.isEmpty then a.query.map Char.toUpper else s
  | none => a.query.map Char.toUpper

/-- Line 122: the project slug with fallback identifier "default". -/
def projectSlugOf (a : Args) : PyStr :=
  _slugify_path_segment (projectNameOf a) (str "default")

/-- Line 123: `Path(args.output_dir).resolve() if args.output_dir else
Path.cwd()`.  `resolve` abstracts the filesystem-dependent
`Path.resolve`; `cwd` is the current working directory. -/
def baseOutputDirOf (cwd : PyStr) (resolve : PyStr → PyStr) (a : Args) : PyStr :=
  match a.outputDir with
  | some s => if s.isEmpty then cwd else resolve s
  | none => cwd

/-- The persistence confirmation printed for `--persist` runs
(lines 119-133): the design-system directory, the master path, and, when
`args.page` is truthy, the page override path. -/
def persistConfirmation (cwd : PyStr) (resolve : PyStr → PyStr) (a : Args) :
    Option PersistConfirmation :=
  if a.persist then
    let dsDir := pathJoin (pathJoin (baseOutputDirOf cwd resolve a) (str "design-system"))
      (projectSlugOf a)
    some { dir := dsDir,
           masterPath := pathJoin dsDir (str "MASTER.md"),
           pagePath :=
             match a.page with
             | some p =>
               if p.isEmpty then none
               else some (pathJoin (pathJoin dsDir (str "pages"))
                 (_slugify_path_segment p (str "page") ++ str ".md"))
             | none => none }
  else none

/-- The behaviour of `__main__` (lines 96-150): `argparse` validation
(the mutually exclusive selector group and the choices lists), the three
explicit `parser.error` checks — all before any retrieval or write — and
then the dispatch: design-system generation (with the persistence
confirmation), stack search, or domain search with whatever `--domain`
holds (possibly `None`). -/
def runMain (cwd : PyStr) (resolve : PyStr → PyStr) (a : Args) : MainOutcome :=
  if a.domain.isSome && a.stack.isSome then .argError .mutuallyExclusiveSelectors
  else if !choicesOk a then .argError .invalidChoice
  else if truthyOpt a.page && !a.persist then .argError .pageRequiresPersist
  else if (a.persist || truthyOpt a.page || truthyOpt a.outputDir) && !a.designSystem then
    .argError .persistOnlyWithDesignSystem
  else if a.designSystem && a.json then .argError .jsonNotWithDesignSystem
  else if a.designSystem then .designSystemRun (persistConfirmation cwd resolve a)
  else
    match a.stack with
    | some s => .stackSearch a.query s a.maxResults a.json
    | none => .domainSearch a.query a.domain a.maxResults a.json

/-- Does the outcome reject the invocation with an argument error (so no
retrieval and no file write happens)? -/
def isArgError : MainOutcome → Bool
  | .argError _ => true
  | _ => false

/-! ### Claim C1: field truncation in the textual report -/

theorem mem_withIdx_of_mem {α : Type} :
    ∀ (l : List α) (a : α) (i : Nat), a ∈ l → ∃ j, (j, a) ∈ withIdx i l := by
  intro l
  induction l with
  | nil => intro a i ha; simp at ha
  | cons x xs ih =>
    intro a i ha
    rcases List.mem_cons.mp ha with rfl | ha2
    · exact ⟨i, List.mem_cons_self _ _⟩
    · rcases ih a (i + 1) ha2 with ⟨j, hj⟩
      exact ⟨j, List.mem_cons_of_mem _ hj⟩

/-- A value of 301 characters, for exercising the truncation branch. -/
def longField : PyStr := List.replicate 301 'a'

/-- A one-row retrieval result whose single field value has 301
characters. -/
def envLongField : ResultEnvelope :=
  { domain := some (str "ux")
    query := str "q"
    file := str "ui.csv"
    count := 1
    results := [[(str "k", longField)]] }

set_option maxRecDepth 20000 in
/-- C1 (counterexample): a 301-character field value is rendered by
`format_output` as its first 300 characters plus "...", a displayed
value of 303 characters — more than the 300 characters the claim
allows. -/
theorem truncateField_counterexample :
    longField.length = 301 ∧
    (str "- **k:** " ++ truncateField longField) ∈ formatOutputLines envLongField ∧
    (truncateField longField).length = 303 ∧
    truncateField longField = List.replicate 300 'a' ++ str "..." := by
  refine ⟨by decide, by decide, by decide, by decide⟩

/-- C1 (amended): each displayed field value is at most 303 characters
long: a field value of at most 300 characters is rendered unchanged,
and a longer one is truncated to its first 300 characters followed by
"..." — 303 rendered characters in total; every row field of a non-error
result is rendered through this truncation in the report lines. -/
theorem truncateField_bounded :
    ∀ v : PyStr,
      (truncateField v).length ≤ 303 ∧
      (v.length ≤ 300 → truncateField v = v) ∧
      (300 < v.length →
        truncateField v = v.take 300 ++ str "..." ∧ (truncateField v).length = 303) ∧
      (∀ (r : ResultEnvelope) (row : Row) (k : PyStr), row ∈ r.results → (k, v) ∈ row →
        (str "- **" ++ k ++ str ":** " ++ truncateField v) ∈ formatOutputLines r) := by
  intro v
  refine ⟨?_, ?_, ?_, ?_⟩
  · unfold truncateField
    by_cases h : 300 < v.length
    · rw [if_pos h]
      simp only [List.length_append, List.length_take]
      have h3 : (str "...").length = 3 := rfl
      omega
    · rw [if_neg h]
      omega
  · intro h
    unfold truncateField
    rw [if_neg (by omega)]
  · intro h
    refine ⟨by unfold truncateField; rw [if_pos h], ?_⟩
    unfold truncateField
    rw [if_pos h]
    simp only [List.length_append, List.length_take]
    have h3 : (str "...").length = 3 := rfl
    omega
  · intro r row k hrow hkv
    rcases mem_withIdx_of_mem r.results row 1 hrow with ⟨j, hj⟩
    unfold formatOutputLines
    refine List.mem_append.mpr (Or.inr ?_)
    refine List.mem_flatten.mpr ⟨formatRowLines j row, List.mem_map.mpr ⟨(j, row), hj, rfl⟩, ?_⟩
    unfold formatRowLines
    refine List.mem_cons_of_mem _ (List.mem_append.mpr (Or.inl ?_))
    exact List.mem_map.mpr ⟨(k, v), hkv, rfl⟩

/-- C1 (witness for the amended theorem): a short value is displayed
unchanged. -/
theorem truncateField_bounded_witness : truncateField (str "ab") = str "ab" :=
  (truncateField_bounded (str "ab")).2.1 (by decide)

/-! ### Claims C2-C4: eager argument validation -/

/-- A plain invocation's parsed arguments with every optional flag at its
default, querying for "q". -/
def argsBase : Args :=
  { query := str "q"
    domain := none
    stack := none
    maxResults := 3
    json := false
    designSystem := false
    projectName := none
    fmt := str "ascii"
    persist := false
    page := none
    outputDir := none }

/-- C2 (amended): an invocation whose arguments include `--page` with a
non-empty value but not `--persist` is rejected with an argument error,
before any retrieval or any file write happens. -/
theorem page_requires_persist (cwd : PyStr) (resolve : PyStr → PyStr) (a : Args)
    (hpage : truthyOpt a.page = true) (hpersist : a.persist = false) :
    isArgError (runMain cwd resolve a) = true := by
  unfold runMain
  split
  · rfl
  · split
    · rfl
    · split
      · rfl
      · rename_i h3
        exfalso
        rw [hpage, hpersist] at h3
        simp at h3

/-- C2 (witness): `--page pricing` without `--persist` is rejected. -/
theorem page_requires_persist_witness :
    isArgError (runMain (str "/cwd") (fun s => s)
      { argsBase with page := some (str "pricing") }) = true :=
  page_requires_persist _ _ _ (by decide) (by decide)

/-- C2 (counterexample): supplying `--page ""` without `--persist` is not
rejected: the truthiness test of line 98 treats an empty page value as
absent, and the invocation proceeds to the domain search. -/
theorem empty_page_without_persist_not_rejected :
    ({ argsBase with page := some (str "") } : Args).page = some (str "") ∧
    ({ argsBase with page := some (str "") } : Args).persist = false ∧
    runMain (str "/cwd") (fun s => s) { argsBase with page := some (str "") } =
      .domainSearch (str "q") none 3 false := by
  refine ⟨rfl, rfl, by decide⟩

/-- C3: an invocation combining `--design-system` with `--json` is
rejected with an argument error, before any retrieval or any file write
happens. -/
theorem json_rejected_with_design_system (cwd : PyStr) (resolve : PyStr → PyStr) (a : Args)
    (hds : a.designSystem = true) (hj : a.json = true) :
    isArgError (runMain cwd resolve a) = true := by
  unfold runMain
  split
  · rfl
  · split
    · rfl
    · split
      · rfl
      · split
        · rfl
        · split
          · rfl
          · rename_i h5
            exfalso
            rw [hds, hj] at h5
            simp at h5

/-- C3 (witness): `--design-system --json` is rejected. -/
theorem json_rejected_with_design_system_witness :
    isArgError (runMain (str "/cwd") (fun s => s)
      { argsBase with designSystem := true, json := true }) = true :=
  json_rejected_with_design_system _ _ _ (by decide) (by decide)

/-- C4: the `--domain` and `--stack` selectors are mutually exclusive:
supplying both is rejected with an argument error (the mutually
exclusive group of line 82), so no search operation ever runs with both
selectors. -/
theorem domain_stack_mutually_exclusive (cwd : PyStr) (resolve : PyStr → PyStr) (a : Args)
    (hd : a.domain.isSome = true) (hs : a.stack.isSome = true) :
    isArgError (runMain cwd resolve a) = true := by
  have h1 : (a.domain.isSome && a.stack.isSome) = true := by rw [hd, hs]; rfl
  unfold runMain
  rw [if_pos h1]
  rfl

/-- C4 (witness): `--domain ux --stack react` is rejected. -/
theorem domain_stack_mutually_exclusive_witness :
    isArgError (runMain (str "/cwd") (fun s => s)
      { argsBase with domain := some (str "ux"), stack := some (str "react") }) = true :=
  domain_stack_mutually_exclusive _ _ _ (by decide) (by decide)

/-! ### Claims C5, C9: the persistence confirmation -/

/-- A design-system invocation that passes all argument validation is
dispatched to design-system generation, carrying the persistence
confirmation. -/
theorem runMain_design_system (cwd : PyStr) (resolve : PyStr → PyStr) (a : Args)
    (hds : a.designSystem = true) (hp2 : a.persist = true) (hj : a.json = false)
    (hme : (a.domain.isSome && a.stack.isSome) = false) (hch : choicesOk a = true) :
    runMain cwd resolve a = .designSystemRun (persistConfirmation cwd resolve a) := by
  simp [runMain, hme, hch, hds, hp2, hj]

/-- C5 (amended): for every design-system invocation with `--persist`,
the confirmation lists the master path as
`<output_dir>/design-system/<project-slug>/MASTER.md`, where
`<output_dir>` is the invocation's resolved output directory and
defaults to the current working directory when no `--output-dir` is
supplied, and, when `--page` is supplied with a non-empty value,
additionally lists the page override path
`<output_dir>/design-system/<project-slug>/pages/<page-slug>.md`. -/
theorem persist_confirmation_paths (cwd : PyStr) (resolve : PyStr → PyStr) (a : Args)
    (hds : a.designSystem = true) (hp2 : a.persist = true) (hj : a.json = false)
    (hme : (a.domain.isSome && a.stack.isSome) = false) (hch : choicesOk a = true) :
    (a.outputDir = none → baseOutputDirOf cwd resolve a = cwd) ∧
    runMain cwd resolve a = .designSystemRun (some
      { dir := baseOutputDirOf cwd resolve a ++ str "/design-system/" ++ projectSlugOf a
        masterPath := baseOutputDirOf cwd resolve a ++ str "/design-system/" ++
          projectSlugOf a ++ str "/MASTER.md"
        pagePath :=
          match a.page with
          | some p =>
            if p.isEmpty then none
            else some (baseOutputDirOf cwd resolve a ++ str "/design-system/" ++
              projectSlugOf a ++ str "/pages/" ++
              _slugify_path_segment p (str "page") ++ str ".md")
          | none => none }) := by
  refine ⟨fun hod => by simp [baseOutputDirOf, hod], ?_⟩
  rw [runMain_design_system cwd resolve a hds hp2 hj hme hch]
  unfold persistConfirmation
  rw [if_pos hp2]
  simp only [MainOutcome.designSystemRun.injEq, Option.some.injEq, PersistConfirmation.mk.injEq]
  refine ⟨?_, ?_, ?_⟩
  · simp only [pathJoin, List.append_assoc, List.cons_append]
    rfl
  · simp only [pathJoin, List.append_assoc, List.cons_append]
    rfl
  · cases a.page with
    | none => rfl
    | some p =>
      by_cases hpe : p.isEmpty
      · simp [hpe]
      · simp only [hpe, Bool.false_eq_true, if_false, Option.some.injEq, pathJoin,
          List.append_assoc, List.cons_append]
        rfl

/-- An invocation persisting a design system for the page "pricing". -/
def argsPersistPricing : Args :=
  { argsBase with designSystem := true, persist := true, page := some (str "pricing") }

/-- C5 (witness for the amended theorem): the confirmation for query
"q", page "pricing" — first persisted from `/cwd` with no
`--output-dir` (the cwd default), then with `--output-dir /data`. -/
theorem persist_confirmation_paths_witness :
    runMain (str "/cwd") (fun s => s) argsPersistPricing = .designSystemRun (some
      { dir := str "/cwd/design-system/q"
        masterPath := str "/cwd/design-system/q/MASTER.md"
        pagePath := some (str "/cwd/design-system/q/pages/pricing.md") }) ∧
    runMain (str "/cwd") (fun s => s)
        { argsPersistPricing with outputDir := some (str "/data") } = .designSystemRun (some
      { dir := str "/data/design-system/q"
        masterPath := str "/data/design-system/q/MASTER.md"
        pagePath := some (str "/data/design-system/q/pages/pricing.md") }) := by
  constructor
  · rw [(persist_confirmation_paths (str "/cwd") (fun s => s) argsPersistPricing
      (by decide) (by decide) (by decide) (by decide) (by decide)).2]
    decide
  · rw [(persist_confirmation_paths (str "/cwd") (fun s => s)
      { argsPersistPricing with outputDir := some (str "/data") }
      (by decide) (by decide) (by decide) (by decide) (by decide)).2]
    decide

/-- An invocation persisting a design system with `--page ""`. -/
def argsPersistEmptyPage : Args :=
  { argsBase with designSystem := true, persist := true, page := some (str "") }

/-- C5 (counterexample): with `--page ""` supplied (together with
`--persist`), the printed confirmation contains no page override path at
all — the claim's "when `--page` is supplied" case fails for the empty
page value, which line 128's truthiness test treats as absent. -/
theorem empty_page_confirmation_counterexample :
    argsPersistEmptyPage.page = some (str "") ∧
    runMain (str "/cwd") (fun s => s) argsPersistEmptyPage = .designSystemRun (some
      { dir := str "/cwd/design-system/q"
        masterPath := str "/cwd/design-system/q/MASTER.md"
        pagePath := none }) :=
  ⟨rfl, by decide⟩

/-- C9: when `--project-name` is absent, the project slug is the query
string upper-cased and slugified with fallback "default", and it is the
slug used in the persistence confirmation's directory. -/
theorem project_slug_from_uppercased_query (cwd : PyStr) (resolve : PyStr → PyStr) (a : Args)
    (hpn : a.projectName = none) (hds : a.designSystem = true) (hp2 : a.persist = true)
    (hj : a.json = false) (hme : (a.domain.isSome && a.stack.isSome) = false)
    (hch : choicesOk a = true) :
    projectSlugOf a = _slugify_path_segment (a.query.map Char.toUpper) (str "default") ∧
    (persistConfirmation cwd resolve a).map PersistConfirmation.dir =
      some (pathJoin (pathJoin (baseOutputDirOf cwd resolve a) (str "design-system"))
        (_slugify_path_segment (a.query.map Char.toUpper) (str "default"))) ∧
    runMain cwd resolve a = .designSystemRun (persistConfirmation cwd resolve a) := by
  have h1 : projectNameOf a = a.query.map Char.toUpper := by
    simp [projectNameOf, hpn]
  have h2 : projectSlugOf a = _slugify_path_segment (a.query.map Char.toUpper) (str "default") := by
    rw [projectSlugOf, h1]
  refine ⟨h2, ?_, runMain_design_system cwd resolve a hds hp2 hj hme hch⟩
  unfold persistConfirmation
  rw [if_pos hp2]
  simp [h2]

/-- A design-system persist invocation for query "My App", without a
project name. -/
def argsMyApp : Args :=
  { argsBase with designSystem := true, persist := true, query := str "My App" }

/-- C9 (witness): for query "My App" the confirmation uses the slug of
"MY APP" with fallback "default", namely "my-app". -/
theorem project_slug_from_uppercased_query_witness :
    projectSlugOf argsMyApp =
      _slugify_path_segment (argsMyApp.query.map Char.toUpper) (str "default") ∧
    projectSlugOf argsMyApp = str "my-app" :=
  ⟨(project_slug_from_uppercased_query (str "/cwd") (fun s => s) argsMyApp
      rfl (by decide) (by decide) (by decide) (by decide) (by decide)).1,
   by decide⟩

/-! ### Claim C6: the default result-count limit -/

/-- C6: an invocation that does not supply `--max-results` resolves the
limit to 3, and any search operation it dispatches to receives limit
3. -/
theorem max_results_defaults_to_three (cwd : PyStr) (resolve : PyStr → PyStr) (c : Cmdline)
    (h : c.maxResults = none) :
    (resolveArgs c).maxResults = 3 ∧
    (∀ q s lim j, runMain cwd resolve (resolveArgs c) = .stackSearch q s lim j → lim = 3) ∧
    (∀ q d lim j, runMain cwd resolve (resolveArgs c) = .domainSearch q d lim j → lim = 3) := by
  have hmr : (resolveArgs c).maxResults = 3 := by
    simp [resolveArgs, h, MAX_RESULTS]
  refine ⟨hmr, ?_, ?_⟩
  · intro q s lim j heq
    unfold runMain at heq
    repeat' split at heq
    all_goals first
      | exact MainOutcome.noConfusion heq
      | (injection heq with h1 h2 h3 h4
         exact h3 ▸ hmr)
  · intro q d lim j heq
    unfold runMain at heq
    repeat' split at heq
    all_goals first
      | exact MainOutcome.noConfusion heq
      | (injection heq with h1 h2 h3 h4
         exact h3 ▸ hmr)

/-- A command line supplying only the query. -/
def cmdQueryOnly : Cmdline := { query := str "q" }

/-- C6 (witness): with no `--max-results`, the resolved limit is 3. -/
theorem max_results_defaults_to_three_witness :
    (resolveArgs cmdQueryOnly).maxResults = 3 :=
  (max_results_defaults_to_three (str "/cwd") (fun s => s) cmdQueryOnly rfl).1

/-! ### Claim C10: missing selector falls back to domain search -/

/-- C10 (amended): an invocation that supplies neither `--domain` nor
`--stack`, does not request design-system mode, and supplies none of
`--persist`, a non-empty `--page` or a non-empty `--output-dir`, is not
rejected for the missing selector: it dispatches to the domain search
entry point with selector value `None` and the given query and limit. -/
theorem missing_selector_domain_search (cwd : PyStr) (resolve : PyStr → PyStr) (a : Args)
    (hd : a.domain = none) (hs : a.stack = none) (hds : a.designSystem = false)
    (hp2 : a.persist = false) (hpage : truthyOpt a.page = false)
    (hout : truthyOpt a.outputDir = false) :
    runMain cwd resolve a = .domainSearch a.query none a.maxResults a.json := by
  simp [runMain, choicesOk, hd, hs, hds, hp2, hpage, hout]

/-- C10 (witness): a bare query dispatches to the domain search with
selector `None` and limit 3. -/
theorem missing_selector_domain_search_witness :
    runMain (str "/cwd") (fun s => s) argsBase = .domainSearch (str "q") none 3 false :=
  missing_selector_domain_search (str "/cwd") (fun s => s) argsBase
    rfl rfl rfl rfl (by decide) (by decide)

/-- C10 (counterexample): an invocation with neither selector and no
design-system mode but with `--persist` is rejected by line 102's check
instead of invoking the domain search, so the claim's universal statement
fails. -/
theorem persist_without_design_system_counterexample :
    ({ argsBase with persist := true } : Args).domain = none ∧
    ({ argsBase with persist := true } : Args).stack = none ∧
    ({ argsBase with persist := true } : Args).designSystem = false ∧
    runMain (str "/cwd") (fun s => s) { argsBase with persist := true } =
      .argError .persistOnlyWithDesignSystem :=
  ⟨rfl, rfl, rfl, by decide⟩
